import Mathlib

/-!
liboculus: configuration model and status receiver

A shallow embedding of `lib/SonarConfiguration.cpp` and `lib/StatusRx.cpp`.

* C++ `double` values are carried as IEEE-754 binary64 bit patterns; comparisons and the
  narrowing conversion to `uint8_t` are computed exactly on the decoded value.
* Member functions become pure functions on the object's state that also return the list of
  observer invocations they performed.
* Declarations that live in headers outside the translated sources (`Oculus/Oculus.h`,
  `liboculus/SonarConfiguration.h`, `liboculus/StatusRx.h`) are parameters, see `Decls`.
-/

namespace liboculus

/-! ## C++ `double` -/

/-- A C++ `double`: an IEEE-754 binary64 value, held as its 64-bit pattern
(`bits` is read modulo `2^64`). -/
structure Double where
  bits : Nat
  deriving DecidableEq, Repr

/-- Decoded binary64 value.  A finite value `x` is held exactly as the integer
`x * 2^1074` (every finite binary64 value is an integer multiple of `2^-1074`). -/
inductive FpVal where
  | nan : FpVal
  | inf (neg : Bool) : FpVal
  | fin (scaled : Int) : FpVal
  deriving DecidableEq, Repr

namespace Double

/-- Sign bit (bit 63). -/
def sign (d : Double) : Nat := d.bits / 2 ^ 63 % 2

/-- Biased exponent (bits 52..62). -/
def expo (d : Double) : Nat := d.bits / 2 ^ 52 % 2 ^ 11

/-- Fraction field (bits 0..51). -/
def frac (d : Double) : Nat := d.bits % 2 ^ 52

/-- Magnitude of a finite value, scaled by `2^1074`:
subnormals are `frac * 2^-1074`, normals are `(2^52 + frac) * 2^(expo - 1075)`. -/
def mag (d : Double) : Nat :=
  if d.expo = 0 then d.frac else (2 ^ 52 + d.frac) <<< (d.expo - 1)

/-- IEEE-754 decoding of the bit pattern. -/
def val (d : Double) : FpVal :=
  if d.expo = 2047 then
    if d.frac = 0 then FpVal.inf (decide (d.sign = 1)) else FpVal.nan
  else
    FpVal.fin (if d.sign = 1 then -(d.mag : Int) else (d.mag : Int))

end Double

/-- IEEE `a <= b` on decoded values: false as soon as one side is a NaN. -/
def FpVal.le : FpVal → FpVal → Bool
  | FpVal.nan, _ => false
  | _, FpVal.nan => false
  | FpVal.fin a, FpVal.fin b => decide (a ≤ b)
  | FpVal.inf n, FpVal.fin _ => n
  | FpVal.fin _, FpVal.inf n => !n
  | FpVal.inf n, FpVal.inf m => n || !m

/-- IEEE `a < b` on decoded values: false as soon as one side is a NaN. -/
def FpVal.lt : FpVal → FpVal → Bool
  | FpVal.nan, _ => false
  | _, FpVal.nan => false
  | FpVal.fin a, FpVal.fin b => decide (a < b)
  | FpVal.inf n, FpVal.fin _ => n
  | FpVal.fin _, FpVal.inf n => !n
  | FpVal.inf n, FpVal.inf m => n && !m

/-- The number 1 in the scaling of `FpVal.fin`, that is `2^1074`. -/
def Double.unit : Nat := 1 <<< 1074

/-- A decoded value is a finite number in the half-open interval `(0, hi]`. -/
def FpVal.inOC : FpVal → Nat → Prop
  | FpVal.fin s, hi => 0 < s ∧ s ≤ Int.ofNat (hi * Double.unit)
  | FpVal.nan, _ => False
  | FpVal.inf _, _ => False

/-- A decoded value is a finite number strictly between 0 and 1. -/
def FpVal.inOO01 : FpVal → Prop
  | FpVal.fin s => 0 < s ∧ s < Int.ofNat Double.unit
  | FpVal.nan => False
  | FpVal.inf _ => False

instance : (x : FpVal) → Decidable (FpVal.inOO01 x)
  | FpVal.fin s => inferInstanceAs (Decidable (0 < s ∧ s < Int.ofNat Double.unit))
  | FpVal.nan => isFalse (fun h => h)
  | FpVal.inf _ => isFalse (fun h => h)

/-- A decoded value is a finite number `x` with `k <= x < k + 1`. -/
def FpVal.floorIs : FpVal → Nat → Prop
  | FpVal.fin s, k => Int.ofNat (k * Double.unit) ≤ s ∧ s < Int.ofNat ((k + 1) * Double.unit)
  | FpVal.nan, _ => False
  | FpVal.inf _, _ => False

instance : (x : FpVal) → (k : Nat) → Decidable (FpVal.floorIs x k)
  | FpVal.fin s, k => inferInstanceAs
      (Decidable (Int.ofNat (k * Double.unit) ≤ s ∧ s < Int.ofNat ((k + 1) * Double.unit)))
  | FpVal.nan, _ => isFalse (fun h => h)
  | FpVal.inf _, _ => isFalse (fun h => h)

instance : (x : FpVal) → (hi : Nat) → Decidable (FpVal.inOC x hi)
  | FpVal.fin s, hi => inferInstanceAs (Decidable (0 < s ∧ s ≤ Int.ofNat (hi * Double.unit)))
  | FpVal.nan, _ => isFalse (fun h => h)
  | FpVal.inf _, _ => isFalse (fun h => h)

namespace Double

/-- The C++ comparison `a <= b` on doubles. -/
def le (a b : Double) : Bool := FpVal.le a.val b.val

/-- The C++ comparison `a > b` on doubles. -/
def gt (a b : Double) : Bool := FpVal.lt b.val a.val

/-- Floating-to-integral conversion `double -> uint8_t`: the fractional part is discarded
(truncation toward zero).  C++ defines the result only when the truncated value fits the
destination, which the guard of `setGamma` ensures; elsewhere the model returns the truncated
magnitude modulo 256 for finite non-negative values and 0 otherwise. -/
def toUInt8 (d : Double) : Nat :=
  match d.val with
  | FpVal.fin s => (Int.tdiv s (Int.ofNat unit)).toNat % 256
  | _ => 0

/-- The `int` literal 0 converted to double, also the literal `0.0`. -/
def zero : Double := ⟨0⟩

/-- The `int` literal 2 converted to double (`2.0`). -/
def two : Double := ⟨0x4000000000000000⟩

/-- The `int` literal 40 converted to double (`40.0`). -/
def forty : Double := ⟨0x4044000000000000⟩

/-- The `int` literal 50 converted to double (`50.0`). -/
def fifty : Double := ⟨0x4049000000000000⟩

/-- The `int` literal 100 converted to double (`100.0`). -/
def hundred : Double := ⟨0x4059000000000000⟩

/-- The `int` literal 127 converted to double (`127.0`). -/
def d127 : Double := ⟨0x405FC00000000000⟩

/-- The mathematical reading of `0 < v <= hi` for a double `v` and a natural bound `hi`:
`v` is a finite number (not a NaN, not an infinity) whose exact value lies in `(0, hi]`. -/
def inOC (v : Double) (hi : Nat) : Prop := FpVal.inOC v.val hi

instance (v : Double) (hi : Nat) : Decidable (inOC v hi) :=
  inferInstanceAs (Decidable (FpVal.inOC v.val hi))

/-- The mathematical reading of `k <= v < k + 1` for a double `v` and a natural `k`: `k` is
`v` with its fractional part discarded, the truncation toward zero of a non-negative `v`. -/
def truncatesTo (v : Double) (k : Nat) : Prop := FpVal.floorIs v.val k

instance (v : Double) (k : Nat) : Decidable (truncatesTo v k) :=
  inferInstanceAs (Decidable (FpVal.floorIs v.val k))

/-- The double `v` is the whole number `k`. -/
def isNat (v : Double) (k : Nat) : Prop := v.val = FpVal.fin (Int.ofNat (k * unit))

instance (v : Double) (k : Nat) : Decidable (isNat v k) :=
  inferInstanceAs (Decidable (v.val = FpVal.fin (Int.ofNat (k * unit))))

/-- The mathematical reading of `0 < v < 1` for a double `v`. -/
def fractional (v : Double) : Prop := FpVal.inOO01 v.val

instance (v : Double) : Decidable (fractional v) :=
  inferInstanceAs (Decidable (FpVal.inOO01 v.val))

end Double

/-! ## Declarations taken from headers outside the translated sources -/

/-- Enumerators and sizes declared in `Oculus/Oculus.h` (vendor header), in
`liboculus/SonarConfiguration.h` and in `liboculus/StatusRx.h`, none of which is among the
translated sources.  They are parameters of the model. -/
structure Decls where
  /-- Enumerator `messageSimpleFire` of the message-kind enumeration. -/
  messageSimpleFire : Nat
  /-- Enumerator `pingRateNormal` of `PingRateType`. -/
  pingRateNormal : Nat
  /-- Enumerator `OCULUS_HIGH_FREQ` of `OculusFreqMode`. -/
  OCULUS_HIGH_FREQ : Nat
  /-- Value of `sizeof(OculusMessageHeader)`. -/
  sizeofMessageHeader : Nat
  /-- Value of `sizeof(OculusSimpleFireMessage)`. -/
  sizeofSimpleFireMessage : Nat
  /-- Value of `sizeof(OculusStatusMsg)`. -/
  sizeofStatusMsg : Nat
  /-- Number of values of the fixed-width integer type that `StatusRx` declares for its
  counter `_valid`: the counter holds `0 .. counterRange - 1`. -/
  counterRange : Nat
  deriving DecidableEq, Repr

/-- A concrete choice of the header constants, for evaluating the model on concrete inputs:
message kind `0x15`, `pingRateNormal = 0`, `OCULUS_HIGH_FREQ = 2`, a 16-byte header, a 53-byte
fire message, a 142-byte status message and 16-bit counters. -/
def Decls.sample : Decls :=
  { messageSimpleFire := 0x15, pingRateNormal := 0, OCULUS_HIGH_FREQ := 2,
    sizeofMessageHeader := 16, sizeofSimpleFireMessage := 53, sizeofStatusMsg := 142,
    counterRange := 65536 }

/-! ## The command struct -/

/-- The fields of `OculusMessageHeader` that the sources write. -/
structure OculusMessageHeader where
  oculusId : Nat
  msgId : Nat
  srcDeviceId : Nat
  dstDeviceId : Nat
  payloadSize : Nat
  deriving DecidableEq, Repr

/-- The struct `OculusSimpleFireMessage`, with the fields listed in the constructor of
`SonarConfiguration`.  The `uint8_t` fields hold naturals below 256; `pingRate` holds a
`PingRateType` value. -/
structure OculusSimpleFireMessage where
  head : OculusMessageHeader
  masterMode : Nat
  pingRate : Nat
  networkSpeed : Nat
  gammaCorrection : Nat
  flags : Nat
  range : Double
  gainPercent : Double
  speedOfSound : Double
  salinity : Double
  deriving DecidableEq, Repr

/-- The struct after `memset( &_sfm, 0, sizeof(OculusSimpleFireMessage))`. -/
def OculusSimpleFireMessage.zeroed : OculusSimpleFireMessage :=
  { head := { oculusId := 0, msgId := 0, srcDeviceId := 0, dstDeviceId := 0, payloadSize := 0 },
    masterMode := 0, pingRate := 0, networkSpeed := 0, gammaCorrection := 0, flags := 0,
    range := ⟨0⟩, gainPercent := ⟨0⟩, speedOfSound := ⟨0⟩, salinity := ⟨0⟩ }

/-- How the compiler lays the command struct out in memory; the struct is declared in
`Oculus/Oculus.h`, so the layout is a parameter of the model.

* `byteAt m i` is the byte at offset `i` from the address of an `OculusSimpleFireMessage`
  object whose fields have the values `m`.
* `readHeader bs` is the `OculusMessageHeader` that the bytes `bs` hold at offset 0. -/
structure Abi where
  byteAt : OculusSimpleFireMessage → Nat → Nat
  readHeader : List Nat → OculusMessageHeader

/-- The `w` little-endian bytes of `n`. -/
def leBytes : Nat → Nat → List Nat
  | 0, _ => []
  | w + 1, n => n % 256 :: leBytes w (n / 256)

/-- The number held little-endian by a list of bytes. -/
def leValue : List Nat → Nat
  | [] => 0
  | b :: bs => b + 256 * leValue bs

/-- A concrete layout for evaluating the model: no padding, little-endian; a 16-byte header
(`oculusId`, `srcDeviceId`, `dstDeviceId`, `msgId`, a 16-bit version, the 32-bit `payloadSize`,
16 spare bits), then the five one-byte fields `masterMode`, `pingRate`, `networkSpeed`,
`gammaCorrection`, `flags`, then the four doubles `range`, `gainPercent`, `speedOfSound`,
`salinity`: 53 bytes. -/
def Abi.packed : Abi :=
  { byteAt := fun m i =>
      (leBytes 2 m.head.oculusId ++ leBytes 2 m.head.srcDeviceId
        ++ leBytes 2 m.head.dstDeviceId ++ leBytes 2 m.head.msgId ++ leBytes 2 0
        ++ leBytes 4 m.head.payloadSize ++ leBytes 2 0
        ++ [m.masterMode % 256, m.pingRate % 256, m.networkSpeed % 256,
            m.gammaCorrection % 256, m.flags % 256]
        ++ leBytes 8 m.range.bits ++ leBytes 8 m.gainPercent.bits
        ++ leBytes 8 m.speedOfSound.bits ++ leBytes 8 m.salinity.bits).getD i 0,
    readHeader := fun bs =>
      { oculusId := leValue ((bs.drop 0).take 2),
        srcDeviceId := leValue ((bs.drop 2).take 2),
        dstDeviceId := leValue ((bs.drop 4).take 2),
        msgId := leValue ((bs.drop 6).take 2),
        payloadSize := leValue ((bs.drop 10).take 4) } }

/-! ## SonarConfiguration -/

/-- The data members of `SonarConfiguration`.  `_callback` records whether the stored
`std::function` holds a target (its `operator bool`); what the target does when invoked is
outside the class, so invocations are recorded, see `Out`. -/
structure SonarConfiguration where
  _postponeCallback : Bool
  _callback : Bool
  _sfm : OculusSimpleFireMessage
  deriving DecidableEq, Repr

/-- Result of a member function: the object afterwards, and the arguments of the calls
`_callback( *this )` made meanwhile, oldest first. -/
structure Out where
  cfg : SonarConfiguration
  calls : List SonarConfiguration
  deriving DecidableEq, Repr

namespace SonarConfiguration

/-- The constructor `SonarConfiguration::SonarConfiguration()`. -/
def new (K : Decls) : SonarConfiguration :=
  let sfm := OculusSimpleFireMessage.zeroed
  let sfm := { sfm with head := { sfm.head with oculusId := 0x4f53 } }
  let sfm := { sfm with head := { sfm.head with msgId := K.messageSimpleFire } }
  let sfm := { sfm with head := { sfm.head with srcDeviceId := 0 } }
  let sfm := { sfm with head := { sfm.head with dstDeviceId := 0 } }
  let sfm := { sfm with head := { sfm.head with
    payloadSize := K.sizeofSimpleFireMessage - K.sizeofMessageHeader } }
  let sfm := { sfm with masterMode := K.OCULUS_HIGH_FREQ }
  let sfm := { sfm with networkSpeed := 0xff }
  let sfm := { sfm with gammaCorrection := 127 }
  let sfm := { sfm with pingRate := K.pingRateNormal }
  let sfm := { sfm with range := Double.two }
  let sfm := { sfm with gainPercent := Double.fifty }
  let sfm := { sfm with flags := 0x19 }
  let sfm := { sfm with speedOfSound := Double.zero }
  let sfm := { sfm with salinity := Double.zero }
  { _postponeCallback := false, _callback := false, _sfm := sfm }

/-- Modelled from the spec: the member that registers the configuration observer is declared
in `liboculus/SonarConfiguration.h`, which is missing; the observer is "a single-slot
callback", so after registration the slot `_callback` holds a target. -/
def setCallback (c : SonarConfiguration) : SonarConfiguration :=
  { c with _callback := true }

/-- Member function `SonarConfiguration::postponeCallback`. -/
def postponeCallback (c : SonarConfiguration) : SonarConfiguration :=
  { c with _postponeCallback := true }

/-- Member function `SonarConfiguration::sendCallback`: the flag is cleared first, then
tested. -/
def sendCallback (c : SonarConfiguration) : Out :=
  let c := { c with _postponeCallback := false }
  if c._callback && !c._postponeCallback then { cfg := c, calls := [c] }
  else { cfg := c, calls := [] }

/-- Member function `SonarConfiguration::setRange`. -/
def setRange (c : SonarConfiguration) (input : Double) : Out :=
  let c := if Double.le input Double.forty && Double.gt input Double.zero
    then { c with _sfm := { c._sfm with range := input } } else c
  sendCallback c

/-- Member function `SonarConfiguration::setGainPercent`. -/
def setGainPercent (c : SonarConfiguration) (input : Double) : Out :=
  let c := if Double.le input Double.hundred && Double.gt input Double.zero
    then { c with _sfm := { c._sfm with gainPercent := input } } else c
  sendCallback c

/-- Member function `SonarConfiguration::setGamma`: the accepted double is narrowed to the
`uint8_t` field. -/
def setGamma (c : SonarConfiguration) (input : Double) : Out :=
  let c := if Double.le input Double.d127 && Double.gt input Double.zero
    then { c with _sfm := { c._sfm with gammaCorrection := Double.toUInt8 input } } else c
  sendCallback c

/-- Member function `SonarConfiguration::setPingRate`: the argument already has the field's
type. -/
def setPingRate (c : SonarConfiguration) (newRate : Nat) : Out :=
  let c := { c with _sfm := { c._sfm with pingRate := newRate } }
  sendCallback c

/-- Member function `SonarConfiguration::setFreqMode`. -/
def setFreqMode (c : SonarConfiguration) (input : Nat) : Out :=
  let c := { c with _sfm := { c._sfm with masterMode := input } }
  sendCallback c

/-- The five setters of the class, with their arguments. -/
inductive Setter where
  | setRange (input : Double) : Setter
  | setGainPercent (input : Double) : Setter
  | setGamma (input : Double) : Setter
  | setPingRate (newRate : Nat) : Setter
  | setFreqMode (input : Nat) : Setter
  deriving DecidableEq, Repr

/-- One setter call on the object. -/
def applySetter (c : SonarConfiguration) : Setter → Out
  | Setter.setRange v => setRange c v
  | Setter.setGainPercent v => setGainPercent c v
  | Setter.setGamma v => setGamma c v
  | Setter.setPingRate v => setPingRate c v
  | Setter.setFreqMode v => setFreqMode c v

/-- A sequence of setter calls, made one after the other on the same object; the observer
invocations are collected in order. -/
def runSetters (c : SonarConfiguration) : List Setter → Out
  | [] => { cfg := c, calls := [] }
  | s :: rest =>
    let o := applySetter c s
    let r := runSetters o.cfg rest
    { cfg := r.cfg, calls := o.calls ++ r.calls }

/-- The call `std::streambuf::sputn( s, n )` on a stream that grows on demand: the `n`
characters `s[0] .. s[n-1]` are appended.  `s` is given as the function from offsets to
bytes. -/
def sputn (stream : List Nat) (s : Nat → Nat) (n : Nat) : List Nat :=
  stream ++ (List.range n).map s

/-- What `serializeTo` leaves behind: the object after the call, the content of the stream,
and the bytes written to the archive file (`none` when the file could not be opened). -/
structure Serialized where
  cfg : SonarConfiguration
  stream : List Nat
  outFile : Option (List Nat)
  deriving DecidableEq, Repr

/-- Member function `SonarConfiguration::serializeTo`.  `A.byteAt c._sfm` is the memory that
`reinterpret_cast<const char*>(&_sfm)` points to; `opened` tells whether the `std::ofstream`
on the dated file name could be opened.  The body assigns to no data member (the function is
declared `const`), so the object after the call is the object before it. -/
def serializeTo (K : Decls) (A : Abi) (c : SonarConfiguration) (opened : Bool)
    (stream : List Nat) : Serialized :=
  { cfg := c,
    outFile := if opened
      then some ((List.range K.sizeofSimpleFireMessage).map (A.byteAt c._sfm)) else none,
    stream := sputn stream (A.byteAt c._sfm) K.sizeofSimpleFireMessage }

end SonarConfiguration

/-! ## StatusRx -/

/-- The data members of `StatusRx` that `handleRead` and `startReader` use, for a status
summary type `σ` (`SonarStatus`) and a message type `μ` (`OculusStatusMsg`).

* `_valid`, `_invalid`: the counters.  Their fixed-width integer type is declared in the
  class header; `_valid` holds a value below `Decls.counterRange` and its increment wraps
  there, as that of an unsigned type does.  Nothing in the sources writes `_invalid` after
  the constructor.
* `_sonarStatusCallback`: whether the stored `std::function` holds a target.
* `armed`: the number of asynchronous receives started on `_socket` by `async_receive` whose
  completion handler has not run yet. -/
structure StatusRx (σ μ : Type) where
  _status : σ
  _valid : Nat
  _invalid : Nat
  _osm : μ
  _sonarStatusCallback : Bool
  armed : Nat

/-- Result of a member function of `StatusRx`: the object afterwards and the arguments of the
calls `_sonarStatusCallback( _status )` made meanwhile, oldest first. -/
structure RxOut (σ μ : Type) where
  rx : StatusRx σ μ
  calls : List σ

/-- What the I/O service reports when a datagram arrives or the socket fails: the value of
the error code, the byte count, and the content the receive buffer then has. -/
structure Completion (μ : Type) where
  ec : Nat
  bytes_transferred : Nat
  received : μ

namespace StatusRx

variable {σ μ : Type}

/-- Member function `StatusRx::startReader`: one more asynchronous receive is outstanding on
the socket. -/
def startReader (rx : StatusRx σ μ) : StatusRx σ μ :=
  { rx with armed := rx.armed + 1 }

/-- The constructor `StatusRx::StatusRx` followed by its call of `doConnect`: counters at
zero, empty observer slot; when `_socket.open` reports no error (`openError = 0`) the socket is
bound and one receive is started.  `status0` is the default-constructed summary and `osm`
the initial content of the receive buffer.  When `_socket.open` reports an error, `doConnect`
still calls the throwing `_socket.set_option` on the socket that did not open, before it
tests the error, so construction need not complete; the value given here for
`openError ≠ 0` (no receive started) is what the `else` branch leaves when `set_option`
returns, and nothing below relies on it. -/
def new (status0 : σ) (osm : μ) (openError : Nat) : StatusRx σ μ :=
  let rx : StatusRx σ μ :=
    { _status := status0, _valid := 0, _invalid := 0, _osm := osm,
      _sonarStatusCallback := false, armed := 0 }
  if openError = 0 then startReader rx else rx

/-- Modelled from the spec: the member that registers the status observer is declared in
`liboculus/StatusRx.h`, which is missing; after registration the slot `_sonarStatusCallback`
holds a target. -/
def setCallback (rx : StatusRx σ μ) : StatusRx σ μ :=
  { rx with _sonarStatusCallback := true }

/-- Member function `StatusRx::handleRead`, the completion handler.  `ec` is the value of the
error code (`!ec` holds exactly when it is 0), `update` is `SonarStatus::update`, and the
received bytes are already in `_osm`, where the receive operation put them.  The statement
`_valid++` acts on a fixed-width counter: the successor is taken modulo `K.counterRange`. -/
def handleRead (K : Decls) (update : σ → μ → σ) (rx : StatusRx σ μ)
    (ec : Nat) (bytes_transferred : Nat) : RxOut σ μ :=
  if ec = 0 then
    if bytes_transferred ≠ K.sizeofStatusMsg then
      { rx := rx, calls := [] }
    else
      let rx := { rx with _status := update rx._status rx._osm }
      let calls := if rx._sonarStatusCallback then [rx._status] else []
      let rx := { rx with _valid := (rx._valid + 1) % K.counterRange }
      let rx := startReader rx
      { rx := rx, calls := calls }
  else
    { rx := rx, calls := [] }

/-- Completion of an outstanding asynchronous receive, as the I/O service delivers it: the
operation is consumed, the buffer `_osm` holds what was received, and the bound handler
`handleRead` runs once with the error code and the byte count.  Without an outstanding
receive nothing is delivered. -/
def complete (K : Decls) (update : σ → μ → σ) (rx : StatusRx σ μ)
    (ec : Nat) (bytes_transferred : Nat) (received : μ) : RxOut σ μ :=
  if rx.armed = 0 then { rx := rx, calls := [] }
  else handleRead K update { rx with armed := rx.armed - 1, _osm := received }
    ec bytes_transferred

/-- The receiver is Listening: exactly one asynchronous receive is outstanding. -/
def Listening (rx : StatusRx σ μ) : Prop := rx.armed = 1

instance (rx : StatusRx σ μ) : Decidable (Listening rx) := by
  unfold Listening; infer_instance

/-- A sequence of completions reported one after the other to the same receiver; the observer
invocations are collected in order. -/
def feed (K : Decls) (update : σ → μ → σ) (rx : StatusRx σ μ) :
    List (Completion μ) → RxOut σ μ
  | [] => { rx := rx, calls := [] }
  | d :: rest =>
    let o := complete K update rx d.ec d.bytes_transferred d.received
    let r := feed K update o.rx rest
    { rx := r.rx, calls := o.calls ++ r.calls }

end StatusRx

/-! ## Facts about the double model -/

/-- IEEE comparison against a finite bound and against zero, on decoded values. -/
theorem FpVal.bounds_guard (x : FpVal) (hi : Nat) :
    (FpVal.le x (FpVal.fin (Int.ofNat (hi * Double.unit))) && FpVal.lt (FpVal.fin 0) x)
      = decide (FpVal.inOC x hi) := by
  cases x with
  | nan => simp [FpVal.le, FpVal.inOC]
  | inf n => cases n <;> simp [FpVal.le, FpVal.lt, FpVal.inOC]
  | fin s =>
    simp only [FpVal.le, FpVal.lt, FpVal.inOC]
    by_cases h1 : s ≤ Int.ofNat (hi * Double.unit) <;> by_cases h2 : (0 : Int) < s <;>
      simp [h1, h2]

namespace Double

theorem zero_val : zero.val = FpVal.fin 0 := by decide

theorem forty_val : forty.val = FpVal.fin (Int.ofNat (40 * unit)) := by decide

theorem hundred_val : hundred.val = FpVal.fin (Int.ofNat (100 * unit)) := by decide

theorem d127_val : d127.val = FpVal.fin (Int.ofNat (127 * unit)) := by decide

theorem two_val : two.val = FpVal.fin (Int.ofNat (2 * unit)) := by decide

theorem fifty_val : fifty.val = FpVal.fin (Int.ofNat (50 * unit)) := by decide

/-- The guard `input <= hi && input > 0` of the setters holds exactly when `input` is a finite
number in `(0, hi]`. -/
theorem guard_eq (v k : Double) (hi : Nat) (hk : k.val = FpVal.fin (Int.ofNat (hi * unit))) :
    (le v k && gt v zero) = decide (inOC v hi) := by
  unfold le gt
  rw [hk, zero_val, FpVal.bounds_guard]
  rfl

theorem unit_pos : 0 < unit := by
  have h : ∀ n : Nat, 0 < 1 <<< n := fun n => by
    rw [Nat.one_shiftLeft]
    exact Nat.two_pow_pos n
  exact h 1074

/-- An accepted gamma argument narrows to a byte that is at most 127. -/
theorem toUInt8_le (v : Double) (h : inOC v 127) : toUInt8 v ≤ 127 := by
  unfold inOC at h
  unfold toUInt8
  cases hv : v.val with
  | nan => simp
  | inf n => simp
  | fin s =>
    rw [hv] at h
    obtain ⟨h0, h1⟩ := h
    have hu : (0 : Int) < Int.ofNat unit := Int.ofNat_pos.mpr unit_pos
    have hq : Int.tdiv s (Int.ofNat unit) = s / Int.ofNat unit :=
      Int.tdiv_eq_ediv (Int.le_of_lt h0) (Int.le_of_lt hu)
    have hle : s / Int.ofNat unit ≤ 127 := by
      apply Int.ediv_le_of_le_mul hu
      rw [Int.ofNat_eq_coe, Int.ofNat_mul] at h1
      exact h1
    have hge : 0 ≤ s / Int.ofNat unit := Int.ediv_nonneg (Int.le_of_lt h0) (Int.le_of_lt hu)
    simp only [hq]
    omega

/-- An accepted gamma argument that is at least 1 narrows to a byte that is at least 1. -/
theorem toUInt8_pos (v : Double) (h : inOC v 127) (hf : ¬ fractional v) : 1 ≤ toUInt8 v := by
  unfold inOC at h
  unfold fractional at hf
  unfold toUInt8
  cases hv : v.val with
  | nan => rw [hv] at h; exact absurd h (fun h => h)
  | inf n => rw [hv] at h; exact absurd h (fun h => h)
  | fin s =>
    rw [hv] at h hf
    obtain ⟨h0, h1⟩ := h
    have h2 : Int.ofNat unit ≤ s := by
      by_contra hc
      exact hf ⟨h0, Int.lt_of_not_ge hc⟩
    have hu : (0 : Int) < Int.ofNat unit := Int.ofNat_pos.mpr unit_pos
    have hq : Int.tdiv s (Int.ofNat unit) = s / Int.ofNat unit :=
      Int.tdiv_eq_ediv (Int.le_of_lt h0) (Int.le_of_lt hu)
    have hle : s / Int.ofNat unit ≤ 127 := by
      apply Int.ediv_le_of_le_mul hu
      rw [Int.ofNat_eq_coe, Int.ofNat_mul] at h1
      exact h1
    have hge : 1 ≤ s / Int.ofNat unit := by
      apply Int.le_ediv_of_mul_le hu
      rw [Int.one_mul]
      exact h2
    simp only [hq]
    omega

/-- An accepted gamma argument strictly between 0 and 1 narrows to the byte 0. -/
theorem toUInt8_fractional (v : Double) (hf : fractional v) : toUInt8 v = 0 := by
  unfold fractional at hf
  unfold toUInt8
  cases hv : v.val with
  | nan => rfl
  | inf n => rfl
  | fin s =>
    rw [hv] at hf
    obtain ⟨h0, h1⟩ := hf
    have hu : (0 : Int) < Int.ofNat unit := Int.ofNat_pos.mpr unit_pos
    have hq : Int.tdiv s (Int.ofNat unit) = s / Int.ofNat unit :=
      Int.tdiv_eq_ediv (Int.le_of_lt h0) (Int.le_of_lt hu)
    have hz : s / Int.ofNat unit = 0 := Int.ediv_eq_zero_of_lt (Int.le_of_lt h0) h1
    simp only [hq, hz]
    rfl

/-- A number strictly between 0 and 1 passes the guard of `setGamma`. -/
theorem fractional_inOC (v : Double) (hf : fractional v) : inOC v 127 := by
  unfold fractional at hf
  unfold inOC
  cases hv : v.val with
  | nan => rw [hv] at hf; exact hf
  | inf n => rw [hv] at hf; exact hf
  | fin s =>
    rw [hv] at hf
    obtain ⟨h0, h1⟩ := hf
    refine ⟨h0, ?_⟩
    have hu : (0 : Int) < (unit : Int) := Int.ofNat_pos.mpr unit_pos
    simp only [Int.ofNat_eq_coe, Nat.cast_mul, Nat.cast_ofNat] at h1 ⊢
    linarith

/-- The byte stored for an accepted gamma argument `v` is `v` with its fractional part
discarded: `toUInt8 v <= v < toUInt8 v + 1`. -/
theorem toUInt8_truncates (v : Double) (h : inOC v 127) : truncatesTo v (toUInt8 v) := by
  unfold inOC at h
  unfold truncatesTo toUInt8
  cases hv : v.val with
  | nan => rw [hv] at h; exact h
  | inf n => rw [hv] at h; exact h
  | fin s =>
    rw [hv] at h
    obtain ⟨h0, h1⟩ := h
    simp only [Int.ofNat_eq_coe, Nat.cast_mul, Nat.cast_ofNat] at h1
    have hu : (0 : Int) < (unit : Int) := Int.ofNat_pos.mpr unit_pos
    have hq : Int.tdiv s (unit : Int) = s / (unit : Int) :=
      Int.tdiv_eq_ediv (Int.le_of_lt h0) (Int.le_of_lt hu)
    have hle : s / (unit : Int) ≤ 127 := Int.ediv_le_of_le_mul hu h1
    have hge : 0 ≤ s / (unit : Int) := Int.ediv_nonneg (Int.le_of_lt h0) (Int.le_of_lt hu)
    have hk : (((s / (unit : Int)).toNat % 256 : Nat) : Int) = s / (unit : Int) := by
      omega
    have hlo : s / (unit : Int) * (unit : Int) ≤ s := Int.ediv_mul_le s (Int.ne_of_gt hu)
    have hhi : s < (s / (unit : Int) + 1) * (unit : Int) :=
      Int.lt_ediv_add_one_mul_self s hu
    simp only [FpVal.floorIs, Int.ofNat_eq_coe, hq, Nat.cast_mul, Nat.cast_add, Nat.cast_one,
      hk]
    exact ⟨hlo, hhi⟩

/-- A whole number accepted by the guard of `setGamma` is stored as itself. -/
theorem toUInt8_isNat (v : Double) (k : Nat) (h : inOC v 127) (hk : isNat v k) :
    toUInt8 v = k := by
  have ht := toUInt8_truncates v h
  unfold truncatesTo at ht
  unfold isNat at hk
  rw [hk] at ht
  simp only [FpVal.floorIs, Int.ofNat_eq_coe, Int.ofNat_le, Int.ofNat_lt] at ht
  obtain ⟨h1, h2⟩ := ht
  have a1 : toUInt8 v ≤ k := Nat.le_of_mul_le_mul_right h1 unit_pos
  have a2 : k < toUInt8 v + 1 := Nat.lt_of_mul_lt_mul_right h2
  omega

end Double

/-! ## Facts about SonarConfiguration -/

namespace SonarConfiguration

theorem sendCallback_cfg (c : SonarConfiguration) :
    (sendCallback c).cfg = { c with _postponeCallback := false } := by
  unfold sendCallback
  cases h : c._callback <;> simp [h]

theorem sendCallback_calls (c : SonarConfiguration) :
    (sendCallback c).calls
      = if c._callback then [{ c with _postponeCallback := false }] else [] := by
  unfold sendCallback
  cases h : c._callback <;> simp [h]

/-- With an observer registered, `sendCallback` always notifies, whatever the flag was. -/
theorem sendCallback_registered (c : SonarConfiguration) (h : c._callback = true) :
    sendCallback c = { cfg := { c with _postponeCallback := false },
                       calls := [{ c with _postponeCallback := false }] } := by
  unfold sendCallback
  simp [h]

theorem setRange_eq (c : SonarConfiguration) (v : Double) :
    setRange c v = sendCallback (if Double.inOC v 40
      then { c with _sfm := { c._sfm with range := v } } else c) := by
  unfold setRange
  rw [Double.guard_eq v Double.forty 40 Double.forty_val]
  by_cases h : Double.inOC v 40 <;> simp [h]

theorem setGainPercent_eq (c : SonarConfiguration) (v : Double) :
    setGainPercent c v = sendCallback (if Double.inOC v 100
      then { c with _sfm := { c._sfm with gainPercent := v } } else c) := by
  unfold setGainPercent
  rw [Double.guard_eq v Double.hundred 100 Double.hundred_val]
  by_cases h : Double.inOC v 100 <;> simp [h]

theorem setGamma_eq (c : SonarConfiguration) (v : Double) :
    setGamma c v = sendCallback (if Double.inOC v 127
      then { c with _sfm := { c._sfm with gammaCorrection := Double.toUInt8 v } } else c) := by
  unfold setGamma
  rw [Double.guard_eq v Double.d127 127 Double.d127_val]
  by_cases h : Double.inOC v 127 <;> simp [h]

theorem applySetter_callback (c : SonarConfiguration) (s : Setter) :
    (applySetter c s).cfg._callback = c._callback := by
  cases s <;>
    simp only [applySetter, setRange_eq, setGainPercent_eq, setGamma_eq, setPingRate,
      setFreqMode, sendCallback_cfg] <;>
    first
      | rfl
      | (split <;> rfl)

theorem applySetter_postpone (c : SonarConfiguration) (s : Setter) :
    (applySetter c s).cfg._postponeCallback = false := by
  cases s <;>
    simp only [applySetter, setRange_eq, setGainPercent_eq, setGamma_eq, setPingRate,
      setFreqMode, sendCallback_cfg]

/-- With an observer registered, every setter call notifies exactly once, with the object as
the call leaves it; the postpone flag plays no part. -/
theorem applySetter_calls (c : SonarConfiguration) (s : Setter) (h : c._callback = true) :
    (applySetter c s).calls = [(applySetter c s).cfg] := by
  cases s <;>
    simp only [applySetter, setRange_eq, setGainPercent_eq, setGamma_eq, setPingRate,
      setFreqMode] <;>
    rw [sendCallback_registered] <;>
    first
      | exact h
      | (split <;> exact h)

theorem runSetters_callback (c : SonarConfiguration) (ss : List Setter) :
    (runSetters c ss).cfg._callback = c._callback := by
  induction ss generalizing c with
  | nil => rfl
  | cons s rest ih =>
    simp only [runSetters]
    rw [ih, applySetter_callback]

theorem runSetters_calls_length (c : SonarConfiguration) (ss : List Setter)
    (h : c._callback = true) : (runSetters c ss).calls.length = ss.length := by
  induction ss generalizing c with
  | nil => rfl
  | cons s rest ih =>
    simp only [runSetters, List.length_append, List.length_cons]
    rw [ih _ (by rw [applySetter_callback]; exact h), applySetter_calls c s h]
    simp
    omega

theorem runSetters_postpone (c : SonarConfiguration) (ss : List Setter) (hne : ss ≠ []) :
    (runSetters c ss).cfg._postponeCallback = false := by
  induction ss generalizing c with
  | nil => exact absurd rfl hne
  | cons s rest ih =>
    simp only [runSetters]
    cases rest with
    | nil => simp only [runSetters]; exact applySetter_postpone c s
    | cons t rest2 => exact ih _ (by simp)

/-- A property of the object that every setter call preserves holds after any sequence of
setter calls. -/
theorem runSetters_preserves (P : SonarConfiguration → Prop)
    (hstep : ∀ c s, P c → P (applySetter c s).cfg)
    (c : SonarConfiguration) (h : P c) (ss : List Setter) : P (runSetters c ss).cfg := by
  induction ss generalizing c with
  | nil => exact h
  | cons s rest ih =>
    simp only [runSetters]
    exact ih _ (hstep c s h)

theorem applySetter_gamma_le (c : SonarConfiguration) (s : Setter)
    (h : c._sfm.gammaCorrection ≤ 127) : (applySetter c s).cfg._sfm.gammaCorrection ≤ 127 := by
  cases s with
  | setGamma v =>
    simp only [applySetter, setGamma_eq, sendCallback_cfg]
    by_cases hv : Double.inOC v 127
    · simp only [if_pos hv]
      exact Double.toUInt8_le v hv
    · simp only [if_neg hv]
      exact h
  | setRange v =>
    simp only [applySetter, setRange_eq, sendCallback_cfg]
    split <;> exact h
  | setGainPercent v =>
    simp only [applySetter, setGainPercent_eq, sendCallback_cfg]
    split <;> exact h
  | setPingRate v =>
    simp only [applySetter, setPingRate, sendCallback_cfg]
    exact h
  | setFreqMode v =>
    simp only [applySetter, setFreqMode, sendCallback_cfg]
    exact h

theorem applySetter_head (c : SonarConfiguration) (s : Setter) :
    (applySetter c s).cfg._sfm.head = c._sfm.head := by
  cases s <;>
    simp only [applySetter, setRange_eq, setGainPercent_eq, setGamma_eq, setPingRate,
      setFreqMode, sendCallback_cfg] <;>
    first
      | rfl
      | (split <;> rfl)

/-- No setter writes the message header. -/
theorem runSetters_head (c : SonarConfiguration) (ss : List Setter) :
    (runSetters c ss).cfg._sfm.head = c._sfm.head :=
  runSetters_preserves (fun d => d._sfm.head = c._sfm.head)
    (fun d s h => (applySetter_head d s).trans h) c rfl ss

/-- Whatever the flag was, `sendCallback` notifies exactly when an observer is registered, and
then once, with the object as the call leaves it. -/
theorem sendCallback_calls_cfg (c : SonarConfiguration) :
    (sendCallback c).calls = if c._callback then [(sendCallback c).cfg] else [] := by
  rw [sendCallback_calls, sendCallback_cfg]

theorem setPingRate_eq (c : SonarConfiguration) (v : Nat) :
    setPingRate c v = sendCallback { c with _sfm := { c._sfm with pingRate := v } } := rfl

theorem setFreqMode_eq (c : SonarConfiguration) (v : Nat) :
    setFreqMode c v = sendCallback { c with _sfm := { c._sfm with masterMode := v } } := rfl

theorem applySetter_calls_cfg (c : SonarConfiguration) (s : Setter) :
    (applySetter c s).calls = if c._callback then [(applySetter c s).cfg] else [] := by
  cases s <;>
    simp only [applySetter, setRange_eq, setGainPercent_eq, setGamma_eq, setPingRate_eq,
      setFreqMode_eq] <;>
    rw [sendCallback_calls_cfg] <;>
    first
      | rfl
      | (split <;> rfl)

theorem sputn_length (stream : List Nat) (s : Nat → Nat) (n : Nat) :
    (sputn stream s n).length = stream.length + n := by
  simp [sputn]

end SonarConfiguration

/-! ## Facts about StatusRx -/

namespace StatusRx

variable {σ μ : Type}

/-- An error-free completion with a byte count other than `sizeof(OculusStatusMsg)` takes the
early `return`: the object is left as it was and nothing is called. -/
theorem handleRead_short (K : Decls) (update : σ → μ → σ) (rx : StatusRx σ μ) (n : Nat)
    (hn : n ≠ K.sizeofStatusMsg) :
    handleRead K update rx 0 n = { rx := rx, calls := [] } := by
  unfold handleRead
  simp [hn]

/-- A completion that carries an error takes the `else` branch: the object is left as it was
and nothing is called. -/
theorem handleRead_error (K : Decls) (update : σ → μ → σ) (rx : StatusRx σ μ) (ec n : Nat)
    (hec : ec ≠ 0) : handleRead K update rx ec n = { rx := rx, calls := [] } := by
  unfold handleRead
  simp [hec]

/-- No path of the handler writes the invalid counter. -/
theorem handleRead_invalid (K : Decls) (update : σ → μ → σ) (rx : StatusRx σ μ)
    (ec n : Nat) : (handleRead K update rx ec n).rx._invalid = rx._invalid := by
  unfold handleRead startReader
  by_cases hec : ec = 0 <;> by_cases hn : n = K.sizeofStatusMsg <;> simp [hec, hn]

theorem complete_invalid (K : Decls) (update : σ → μ → σ) (rx : StatusRx σ μ)
    (ec n : Nat) (m : μ) : (complete K update rx ec n m).rx._invalid = rx._invalid := by
  unfold complete
  by_cases h : rx.armed = 0
  · simp [h]
  · rw [if_neg h, handleRead_invalid]

theorem feed_invalid (K : Decls) (update : σ → μ → σ) (rx : StatusRx σ μ)
    (ds : List (Completion μ)) : (feed K update rx ds).rx._invalid = rx._invalid := by
  induction ds generalizing rx with
  | nil => rfl
  | cons d rest ih =>
    simp only [feed]
    rw [ih, complete_invalid]

/-- Once no receive is outstanding, nothing that arrives reaches the handler. -/
theorem feed_idle (K : Decls) (update : σ → μ → σ) (rx : StatusRx σ μ)
    (h : rx.armed = 0) (ds : List (Completion μ)) :
    feed K update rx ds = { rx := rx, calls := [] } := by
  induction ds with
  | nil => rfl
  | cons d rest ih =>
    simp only [feed]
    have hc : complete K update rx d.ec d.bytes_transferred d.received
        = { rx := rx, calls := [] } := by
      unfold complete
      simp [h]
    rw [hc]
    simp only [ih, List.append_nil]

end StatusRx

/-! ## The claims -/

open SonarConfiguration

/-- C1 (postpone latch), as the code behaves: with an observer registered, the `N >= 1`
setter calls made after `postponeCallback()` invoke the observer `N` times, not zero times,
because every setter ends in `sendCallback`, which clears the flag before testing it; the
following `sendCallback` then notifies once more, with the final configuration. -/
theorem C1_postpone_not_honoured (c : SonarConfiguration) (hcb : c._callback = true)
    (ss : List Setter) (hN : 1 ≤ ss.length) :
    (runSetters (postponeCallback c) ss).calls.length = ss.length
    ∧ (runSetters (postponeCallback c) ss).calls ≠ []
    ∧ (sendCallback (runSetters (postponeCallback c) ss).cfg).calls
        = [(runSetters (postponeCallback c) ss).cfg] := by
  have hlen := runSetters_calls_length (postponeCallback c) ss hcb
  have hne : ss ≠ [] := by
    intro h
    rw [h] at hN
    simp at hN
  refine ⟨hlen, ?_, ?_⟩
  · intro h
    rw [h] at hlen
    simp at hlen
    omega
  · have hcb2 : (runSetters (postponeCallback c) ss).cfg._callback = true := by
      rw [runSetters_callback]; exact hcb
    have hpp := runSetters_postpone (postponeCallback c) ss hne
    rw [sendCallback_registered _ hcb2]
    generalize (runSetters (postponeCallback c) ss).cfg = d at hpp
    cases d
    simp only at hpp
    simp [hpp]

/-- C1 at a concrete input: default configuration with an observer, `postponeCallback()`,
then the single call `setRange(10.0)`: one notification during the setter. -/
theorem C1_postpone_not_honoured_witness :
    (setCallback (new Decls.sample))._callback = true
    ∧ 1 ≤ [Setter.setRange ⟨0x4024000000000000⟩].length
    ∧ (runSetters (postponeCallback (setCallback (new Decls.sample)))
        [Setter.setRange ⟨0x4024000000000000⟩]).calls.length = 1 :=
  ⟨rfl, by decide,
    (C1_postpone_not_honoured (setCallback (new Decls.sample)) rfl
      [Setter.setRange ⟨0x4024000000000000⟩] (by decide)).1⟩

/-- C4 (setRange validation): after `setRange(v)` the range field is `v` when `v` is a number
with `0 < v <= 40` and the prior range otherwise; `setRange(0)`, `setRange(-5)` and
`setRange(41)` leave the range unchanged, `setRange(40)` and `setRange(0.001)` store their
argument. -/
theorem C4_setRange_validation :
    (∀ (c : SonarConfiguration) (v : Double),
      (setRange c v).cfg._sfm.range = if Double.inOC v 40 then v else c._sfm.range)
    ∧ (∀ c : SonarConfiguration,
        (setRange c ⟨0⟩).cfg._sfm.range = c._sfm.range
        ∧ (setRange c ⟨0xC014000000000000⟩).cfg._sfm.range = c._sfm.range
        ∧ (setRange c ⟨0x4044800000000000⟩).cfg._sfm.range = c._sfm.range
        ∧ (setRange c ⟨0x4044000000000000⟩).cfg._sfm.range = ⟨0x4044000000000000⟩
        ∧ (setRange c ⟨0x3F50624DD2F1A9FC⟩).cfg._sfm.range = ⟨0x3F50624DD2F1A9FC⟩) := by
  have key : ∀ (c : SonarConfiguration) (v : Double),
      (setRange c v).cfg._sfm.range = if Double.inOC v 40 then v else c._sfm.range := by
    intro c v
    rw [setRange_eq, sendCallback_cfg]
    by_cases h : Double.inOC v 40 <;> simp [h]
  refine ⟨key, fun c => ⟨?_, ?_, ?_, ?_, ?_⟩⟩
  · rw [key, if_neg (by decide)]
  · rw [key, if_neg (by decide)]
  · rw [key, if_neg (by decide)]
  · rw [key, if_pos (by decide)]
  · rw [key, if_pos (by decide)]

/-- C8 (setGainPercent validation): after `setGainPercent(v)` the gainPercent field is `v`
when `v` is a number with `0 < v <= 100` and the prior value otherwise; `setGainPercent(100)`
stores 100, `setGainPercent(100.001)` and `setGainPercent(0)` leave the field unchanged. -/
theorem C8_setGainPercent_validation :
    (∀ (c : SonarConfiguration) (v : Double),
      (setGainPercent c v).cfg._sfm.gainPercent
        = if Double.inOC v 100 then v else c._sfm.gainPercent)
    ∧ (∀ c : SonarConfiguration,
        (setGainPercent c ⟨0x4059000000000000⟩).cfg._sfm.gainPercent = ⟨0x4059000000000000⟩
        ∧ (setGainPercent c ⟨0x40590010624DD2F2⟩).cfg._sfm.gainPercent = c._sfm.gainPercent
        ∧ (setGainPercent c ⟨0⟩).cfg._sfm.gainPercent = c._sfm.gainPercent) := by
  have key : ∀ (c : SonarConfiguration) (v : Double),
      (setGainPercent c v).cfg._sfm.gainPercent
        = if Double.inOC v 100 then v else c._sfm.gainPercent := by
    intro c v
    rw [setGainPercent_eq, sendCallback_cfg]
    by_cases h : Double.inOC v 100 <;> simp [h]
  refine ⟨key, fun c => ⟨?_, ?_, ?_⟩⟩
  · rw [key, if_pos (by decide)]
  · rw [key, if_neg (by decide)]
  · rw [key, if_neg (by decide)]

/-- C7 (rejected input still notifies): with an observer registered and the flag not set, a
call of `setRange`, `setGainPercent` or `setGamma` whose argument is not a number in `(0,40]`,
`(0,100]`, `(0,127]` respectively leaves the object, command struct included, as it was and
invokes the observer exactly once, with that unchanged configuration. -/
theorem C7_rejected_input_notifies (c : SonarConfiguration) (hcb : c._callback = true)
    (hpp : c._postponeCallback = false) (v : Double) :
    (¬ Double.inOC v 40 → setRange c v = { cfg := c, calls := [c] })
    ∧ (¬ Double.inOC v 100 → setGainPercent c v = { cfg := c, calls := [c] })
    ∧ (¬ Double.inOC v 127 → setGamma c v = { cfg := c, calls := [c] }) := by
  have hsend : sendCallback c = { cfg := c, calls := [c] } := by
    rw [sendCallback_registered c hcb]
    cases c
    simp only at hpp
    simp [hpp]
  refine ⟨fun h => ?_, fun h => ?_, fun h => ?_⟩
  · rw [setRange_eq, if_neg h, hsend]
  · rw [setGainPercent_eq, if_neg h, hsend]
  · rw [setGamma_eq, if_neg h, hsend]

/-- C7 at a concrete input: default configuration with an observer, and the arguments
`41.0` for the range, `100.001` for the gain, `-5.0` for the gamma. -/
theorem C7_rejected_input_notifies_witness :
    setRange (setCallback (new Decls.sample)) ⟨0x4044800000000000⟩
        = { cfg := setCallback (new Decls.sample), calls := [setCallback (new Decls.sample)] }
    ∧ setGainPercent (setCallback (new Decls.sample)) ⟨0x40590010624DD2F2⟩
        = { cfg := setCallback (new Decls.sample), calls := [setCallback (new Decls.sample)] }
    ∧ setGamma (setCallback (new Decls.sample)) ⟨0xC014000000000000⟩
        = { cfg := setCallback (new Decls.sample), calls := [setCallback (new Decls.sample)] } :=
  ⟨(C7_rejected_input_notifies (setCallback (new Decls.sample)) rfl rfl
      ⟨0x4044800000000000⟩).1 (by decide),
   (C7_rejected_input_notifies (setCallback (new Decls.sample)) rfl rfl
      ⟨0x40590010624DD2F2⟩).2.1 (by decide),
   (C7_rejected_input_notifies (setCallback (new Decls.sample)) rfl rfl
      ⟨0xC014000000000000⟩).2.2 (by decide)⟩

/-- C5 (gamma field invariant), as the code behaves: the guard of `setGamma` tests the
double argument, and the accepted value is then narrowed to the byte, so every `v` with
`0 < v < 1` is stored as 0; from the default configuration the single call `setGamma(0.5)`
leaves gammaCorrection at 0, below the bound 1.  The upper bound 127 holds in every
configuration reached by setter calls. -/
theorem C5_gamma_zero_stored (K : Decls) :
    (runSetters (new K) [Setter.setGamma ⟨0x3FE0000000000000⟩]).cfg._sfm.gammaCorrection = 0
    ∧ ¬ (1 ≤ (runSetters (new K)
          [Setter.setGamma ⟨0x3FE0000000000000⟩]).cfg._sfm.gammaCorrection)
    ∧ (∀ (c : SonarConfiguration) (v : Double), Double.fractional v →
        (setGamma c v).cfg._sfm.gammaCorrection = 0)
    ∧ (∀ ss : List Setter, (runSetters (new K) ss).cfg._sfm.gammaCorrection ≤ 127) := by
  have hfrac : ∀ (c : SonarConfiguration) (v : Double), Double.fractional v →
      (setGamma c v).cfg._sfm.gammaCorrection = 0 := by
    intro c v hf
    rw [setGamma_eq, sendCallback_cfg, if_pos (Double.fractional_inOC v hf)]
    exact Double.toUInt8_fractional v hf
  have h0 : (runSetters (new K)
      [Setter.setGamma ⟨0x3FE0000000000000⟩]).cfg._sfm.gammaCorrection = 0 := by
    simp only [runSetters, applySetter]
    exact hfrac (new K) ⟨0x3FE0000000000000⟩ (by decide)
  refine ⟨h0, ?_, hfrac, fun ss => ?_⟩
  · rw [h0]
    decide
  · exact runSetters_preserves (fun c => c._sfm.gammaCorrection ≤ 127)
      applySetter_gamma_le (new K) (by simp [new]) ss

/-- C2 (malformed-frame counting), as the code behaves: an error-free completion whose byte
count differs from `sizeof(OculusStatusMsg)` leaves the invalid counter as it was (it is not
incremented), and also leaves the valid counter and the status summary unchanged and invokes
no observer. -/
theorem C2_short_read_not_counted {σ μ : Type} (K : Decls) (update : σ → μ → σ)
    (rx : StatusRx σ μ) (n : Nat) (hn : n ≠ K.sizeofStatusMsg) :
    (StatusRx.handleRead K update rx 0 n).rx._invalid = rx._invalid
    ∧ (StatusRx.handleRead K update rx 0 n).rx._invalid ≠ rx._invalid + 1
    ∧ (StatusRx.handleRead K update rx 0 n).rx._valid = rx._valid
    ∧ (StatusRx.handleRead K update rx 0 n).rx._status = rx._status
    ∧ (StatusRx.handleRead K update rx 0 n).calls = [] := by
  rw [StatusRx.handleRead_short K update rx n hn]
  exact ⟨rfl, Nat.ne_of_lt (Nat.lt_succ_self _), rfl, rfl, rfl⟩

/-- C2 at a concrete input: a freshly constructed receiver with an observer, and a 10-byte
datagram where 142 bytes are expected: the invalid counter is still 0. -/
theorem C2_short_read_not_counted_witness :
    (10 : Nat) ≠ Decls.sample.sizeofStatusMsg
    ∧ (StatusRx.handleRead Decls.sample (fun (_ : Nat) (m : Nat) => m)
        (StatusRx.setCallback (StatusRx.new 0 0 0)) 0 10).rx._invalid = 0 :=
  ⟨by decide,
   (C2_short_read_not_counted Decls.sample (fun (_ : Nat) (m : Nat) => m)
      (StatusRx.setCallback (StatusRx.new 0 0 0)) 10 (by decide)).1⟩

/-- C3 (self-healing receive loop), as the code behaves: on an error-free completion whose
byte count differs from `sizeof(OculusStatusMsg)` the handler returns before `startReader`,
so it starts no receive; a receiver that was Listening has no receive outstanding afterwards
and is no longer Listening. -/
theorem C3_short_read_not_rearmed {σ μ : Type} (K : Decls) (update : σ → μ → σ)
    (rx : StatusRx σ μ) (hL : StatusRx.Listening rx) (n : Nat) (hn : n ≠ K.sizeofStatusMsg)
    (received : μ) :
    (StatusRx.handleRead K update rx 0 n).rx.armed = rx.armed
    ∧ (StatusRx.complete K update rx 0 n received).rx.armed = 0
    ∧ ¬ StatusRx.Listening (StatusRx.complete K update rx 0 n received).rx := by
  unfold StatusRx.Listening at hL
  have hc : (StatusRx.complete K update rx 0 n received).rx.armed = 0 := by
    unfold StatusRx.complete
    rw [if_neg (by omega), StatusRx.handleRead_short K update _ n hn]
    simp only
    omega
  refine ⟨?_, hc, ?_⟩
  · rw [StatusRx.handleRead_short K update rx n hn]
  · unfold StatusRx.Listening
    omega

/-- C3 at a concrete input: a freshly constructed, Listening receiver gets a 10-byte datagram
where 142 bytes are expected: no receive is outstanding afterwards. -/
theorem C3_short_read_not_rearmed_witness :
    StatusRx.Listening (StatusRx.new (0 : Nat) (0 : Nat) 0)
    ∧ (10 : Nat) ≠ Decls.sample.sizeofStatusMsg
    ∧ (StatusRx.complete Decls.sample (fun (_ : Nat) (m : Nat) => m)
        (StatusRx.new 0 0 0) 0 10 7).rx.armed = 0 :=
  ⟨by decide, by decide,
   (C3_short_read_not_rearmed Decls.sample (fun (_ : Nat) (m : Nat) => m)
      (StatusRx.new 0 0 0) (by decide) 10 (by decide) 7).2.1⟩

/-- C9 (default flags byte), as the code behaves: the constructor stores `0x19` in the flags
byte, so bit 4 is set besides bit 0 (range in meters) and bit 3 (simple return message); the
byte is not `0x09`, the value that has only bits 0 and 3 set. -/
theorem C9_default_flags_value (K : Decls) :
    (new K)._sfm.flags = 0x19
    ∧ (new K)._sfm.flags ≠ 0x09
    ∧ Nat.testBit (new K)._sfm.flags 0 = true
    ∧ Nat.testBit (new K)._sfm.flags 3 = true
    ∧ Nat.testBit (new K)._sfm.flags 4 = true := by
  refine ⟨rfl, ?_, ?_, ?_, ?_⟩ <;> simp [new] <;> decide

/-- C10 (serialized frame shape): for the default-constructed configuration and every
configuration reached from it by setter calls, `serializeTo` keeps what the stream held and
appends exactly `sizeof(OculusSimpleFireMessage)` bytes; the header read back from the
appended bytes has `payloadSize = sizeof(OculusSimpleFireMessage) - sizeof(OculusMessageHeader)`
and the message kind `messageSimpleFire`.  The layout is any one under which the header
reads back from the struct's bytes. -/
theorem C10_serialized_frame (K : Decls) (A : Abi) (ss : List Setter) (opened : Bool)
    (stream : List Nat)
    (hrd : A.readHeader ((List.range K.sizeofSimpleFireMessage).map
        (A.byteAt (runSetters (new K) ss).cfg._sfm)) = (runSetters (new K) ss).cfg._sfm.head) :
    ((serializeTo K A (runSetters (new K) ss).cfg opened stream).stream).take stream.length
        = stream
    ∧ (((serializeTo K A (runSetters (new K) ss).cfg opened stream).stream).drop
        stream.length).length = K.sizeofSimpleFireMessage
    ∧ (A.readHeader (((serializeTo K A (runSetters (new K) ss).cfg opened stream).stream).drop
        stream.length)).payloadSize = K.sizeofSimpleFireMessage - K.sizeofMessageHeader
    ∧ (A.readHeader (((serializeTo K A (runSetters (new K) ss).cfg opened stream).stream).drop
        stream.length)).msgId = K.messageSimpleFire := by
  have hdrop : ((serializeTo K A (runSetters (new K) ss).cfg opened stream).stream).drop
      stream.length = (List.range K.sizeofSimpleFireMessage).map
        (A.byteAt (runSetters (new K) ss).cfg._sfm) := by
    simp [serializeTo, sputn]
  rw [hdrop, hrd, runSetters_head]
  refine ⟨?_, ?_, rfl, rfl⟩
  · simp [serializeTo, sputn]
  · simp

/-- C10 at a concrete input: the packed little-endian layout with a 16-byte header and a
53-byte message, the configuration after `setRange(10.0)` and `setGamma(0.5)`, and a stream
that already holds two bytes: 53 bytes are appended, and they carry the payload size 37. -/
theorem C10_serialized_frame_witness :
    Abi.packed.readHeader ((List.range Decls.sample.sizeofSimpleFireMessage).map
        (Abi.packed.byteAt (runSetters (new Decls.sample)
          [Setter.setRange ⟨0x4024000000000000⟩,
            Setter.setGamma ⟨0x3FE0000000000000⟩]).cfg._sfm))
      = (runSetters (new Decls.sample)
          [Setter.setRange ⟨0x4024000000000000⟩,
            Setter.setGamma ⟨0x3FE0000000000000⟩]).cfg._sfm.head
    ∧ (((serializeTo Decls.sample Abi.packed (runSetters (new Decls.sample)
          [Setter.setRange ⟨0x4024000000000000⟩,
            Setter.setGamma ⟨0x3FE0000000000000⟩]).cfg true [1, 2]).stream).drop
        [1, 2].length).length = 53
    ∧ (Abi.packed.readHeader (((serializeTo Decls.sample Abi.packed
          (runSetters (new Decls.sample)
            [Setter.setRange ⟨0x4024000000000000⟩,
              Setter.setGamma ⟨0x3FE0000000000000⟩]).cfg true [1, 2]).stream).drop
        [1, 2].length)).payloadSize = 37 :=
  ⟨by decide,
   (C10_serialized_frame Decls.sample Abi.packed
      [Setter.setRange ⟨0x4024000000000000⟩, Setter.setGamma ⟨0x3FE0000000000000⟩]
      true [1, 2] (by decide)).2.1,
   (C10_serialized_frame Decls.sample Abi.packed
      [Setter.setRange ⟨0x4024000000000000⟩, Setter.setGamma ⟨0x3FE0000000000000⟩]
      true [1, 2] (by decide)).2.2.1⟩

/-- C11 (mixed-datagram scenario), as the code behaves: whatever is fed to a freshly started
receiver with an observer, the invalid counter ends at 0 (short datagrams are not counted);
and when the first completion is an error-free short datagram, no later datagram is handled:
the valid counter ends at 0 and the observer is never invoked. -/
theorem C11_mixed_datagrams {σ μ : Type} (K : Decls) (update : σ → μ → σ) (status0 : σ)
    (osm0 : μ) (ds : List (Completion μ)) :
    (StatusRx.feed K update (StatusRx.setCallback (StatusRx.new status0 osm0 0)) ds).rx._invalid
        = 0
    ∧ (∀ (n : Nat) (m : μ), n ≠ K.sizeofStatusMsg →
        (StatusRx.feed K update (StatusRx.setCallback (StatusRx.new status0 osm0 0))
          ({ ec := 0, bytes_transferred := n, received := m } :: ds)).rx._valid = 0
        ∧ (StatusRx.feed K update (StatusRx.setCallback (StatusRx.new status0 osm0 0))
          ({ ec := 0, bytes_transferred := n, received := m } :: ds)).calls = []) := by
  refine ⟨?_, fun n m hn => ?_⟩
  · rw [StatusRx.feed_invalid]
    rfl
  · have hc : StatusRx.complete K update (StatusRx.setCallback (StatusRx.new status0 osm0 0))
        0 n m = { rx := { StatusRx.setCallback (StatusRx.new status0 osm0 0) with
                          armed := 0, _osm := m }, calls := [] } := by
      unfold StatusRx.complete
      rw [if_neg (by simp [StatusRx.setCallback, StatusRx.new, StatusRx.startReader]),
        StatusRx.handleRead_short K update _ n hn]
      rfl
    simp only [StatusRx.feed, hc]
    rw [StatusRx.feed_idle K update _ rfl ds]
    exact ⟨rfl, rfl⟩

/-- C11 at a concrete input: a short datagram, three full-size ones (142 bytes) and another
short one, in this order: valid = 0, invalid = 0, no observer invocation. -/
theorem C11_mixed_datagrams_witness :
    (10 : Nat) ≠ Decls.sample.sizeofStatusMsg
    ∧ (StatusRx.feed Decls.sample (fun (_ : Nat) (m : Nat) => m)
        (StatusRx.setCallback (StatusRx.new 0 0 0))
        [{ ec := 0, bytes_transferred := 10, received := 1 },
         { ec := 0, bytes_transferred := 142, received := 2 },
         { ec := 0, bytes_transferred := 142, received := 3 },
         { ec := 0, bytes_transferred := 142, received := 4 },
         { ec := 0, bytes_transferred := 10, received := 5 }]).rx._valid = 0
    ∧ (StatusRx.feed Decls.sample (fun (_ : Nat) (m : Nat) => m)
        (StatusRx.setCallback (StatusRx.new 0 0 0))
        [{ ec := 0, bytes_transferred := 10, received := 1 },
         { ec := 0, bytes_transferred := 142, received := 2 },
         { ec := 0, bytes_transferred := 142, received := 3 },
         { ec := 0, bytes_transferred := 142, received := 4 },
         { ec := 0, bytes_transferred := 10, received := 5 }]).calls = [] :=
  ⟨by decide,
   ((C11_mixed_datagrams Decls.sample (fun (_ : Nat) (m : Nat) => m) 0 0
      [{ ec := 0, bytes_transferred := 142, received := 2 },
       { ec := 0, bytes_transferred := 142, received := 3 },
       { ec := 0, bytes_transferred := 142, received := 4 },
       { ec := 0, bytes_transferred := 10, received := 5 }]).2 10 1 (by decide)).1,
   ((C11_mixed_datagrams Decls.sample (fun (_ : Nat) (m : Nat) => m) 0 0
      [{ ec := 0, bytes_transferred := 142, received := 2 },
       { ec := 0, bytes_transferred := 142, received := 3 },
       { ec := 0, bytes_transferred := 142, received := 4 },
       { ec := 0, bytes_transferred := 10, received := 5 }]).2 10 1 (by decide)).2⟩

/-- C12 (transport error is terminal): on a completion that carries a non-zero error code,
whatever the byte count, `handleRead` starts no receive, invokes no observer and leaves the
valid counter, the invalid counter and the status summary unchanged; the receive that
completed is gone, so one receive fewer is outstanding. -/
theorem C12_transport_error_terminal {σ μ : Type} (K : Decls) (update : σ → μ → σ)
    (rx : StatusRx σ μ) (ec n : Nat) (hec : ec ≠ 0) :
    (StatusRx.handleRead K update rx ec n).rx.armed = rx.armed
    ∧ (StatusRx.handleRead K update rx ec n).calls = []
    ∧ (StatusRx.handleRead K update rx ec n).rx._valid = rx._valid
    ∧ (StatusRx.handleRead K update rx ec n).rx._invalid = rx._invalid
    ∧ (StatusRx.handleRead K update rx ec n).rx._status = rx._status
    ∧ (∀ received : μ,
        (StatusRx.complete K update rx ec n received).rx.armed = rx.armed - 1
        ∧ (StatusRx.complete K update rx ec n received).calls = []) := by
  rw [StatusRx.handleRead_error K update rx ec n hec]
  refine ⟨rfl, rfl, rfl, rfl, rfl, fun received => ?_⟩
  unfold StatusRx.complete
  by_cases h : rx.armed = 0
  · simp [h]
  · rw [if_neg h, StatusRx.handleRead_error K update _ ec n hec]
    exact ⟨rfl, rfl⟩

/-- C12 at a concrete input: a Listening receiver with an observer whose receive completes
with error code 104 and 142 bytes: nothing is outstanding afterwards, nothing was counted. -/
theorem C12_transport_error_terminal_witness :
    (104 : Nat) ≠ 0
    ∧ (StatusRx.complete Decls.sample (fun (_ : Nat) (m : Nat) => m)
        (StatusRx.setCallback (StatusRx.new 0 0 0)) 104 142 9).rx.armed = 1 - 1
    ∧ (StatusRx.handleRead Decls.sample (fun (_ : Nat) (m : Nat) => m)
        (StatusRx.setCallback (StatusRx.new 0 0 0)) 104 142).rx._valid = 0 :=
  ⟨by decide,
   ((C12_transport_error_terminal Decls.sample (fun (_ : Nat) (m : Nat) => m)
      (StatusRx.setCallback (StatusRx.new 0 0 0)) 104 142 (by decide)).2.2.2.2.2 9).1,
   (C12_transport_error_terminal Decls.sample (fun (_ : Nat) (m : Nat) => m)
      (StatusRx.setCallback (StatusRx.new 0 0 0)) 104 142 (by decide)).2.2.1⟩

/-- C13 (default field values): the default-constructed configuration has masterMode
`OCULUS_HIGH_FREQ`, networkSpeed `0xff`, gammaCorrection 127, pingRate `pingRateNormal`,
range 2, gainPercent 50, speedOfSound 0.0, salinity 0.0, protocol id `0x4f53`, message kind
`messageSimpleFire`, source and destination device ids 0, and the postpone flag clear. -/
theorem C13_default_fields (K : Decls) :
    (new K)._sfm.masterMode = K.OCULUS_HIGH_FREQ
    ∧ (new K)._sfm.networkSpeed = 0xff
    ∧ (new K)._sfm.gammaCorrection = 127
    ∧ (new K)._sfm.pingRate = K.pingRateNormal
    ∧ (new K)._sfm.range.val = FpVal.fin (Int.ofNat (2 * Double.unit))
    ∧ (new K)._sfm.gainPercent.val = FpVal.fin (Int.ofNat (50 * Double.unit))
    ∧ (new K)._sfm.speedOfSound.val = FpVal.fin 0
    ∧ (new K)._sfm.salinity.val = FpVal.fin 0
    ∧ (new K)._sfm.head.oculusId = 0x4f53
    ∧ (new K)._sfm.head.msgId = K.messageSimpleFire
    ∧ (new K)._sfm.head.srcDeviceId = 0
    ∧ (new K)._sfm.head.dstDeviceId = 0
    ∧ (new K)._postponeCallback = false :=
  ⟨rfl, rfl, rfl, rfl, Double.two_val, Double.fifty_val, Double.zero_val, Double.zero_val,
    rfl, rfl, rfl, rfl, rfl⟩

/-- C14 (unvalidated enumerations): for every configuration and every value `v`,
`setPingRate(v)` leaves `pingRate = v` and `setFreqMode(v)` leaves `masterMode = v`, without
any range check, and each call invokes the observer, when one is registered, exactly once
with the updated configuration. -/
theorem C14_unvalidated_enumerations (c : SonarConfiguration) (v : Nat) :
    (setPingRate c v).cfg._sfm.pingRate = v
    ∧ (setFreqMode c v).cfg._sfm.masterMode = v
    ∧ (setPingRate c v).calls = (if c._callback then [(setPingRate c v).cfg] else [])
    ∧ (setFreqMode c v).calls = (if c._callback then [(setFreqMode c v).cfg] else []) := by
  refine ⟨?_, ?_, ?_, ?_⟩
  · rw [setPingRate_eq, sendCallback_cfg]
  · rw [setFreqMode_eq, sendCallback_cfg]
  · rw [setPingRate_eq, sendCallback_calls_cfg]
  · rw [setFreqMode_eq, sendCallback_calls_cfg]

/-- C15 (serialize is repeatable and read-only): a `serializeTo` call leaves the object as
it was, command struct and postpone flag included, keeps what the stream held and appends the
`sizeof(OculusSimpleFireMessage)` bytes of the command struct; a second call, made on the
object the first one leaves and on the stream it leaves, appends the same bytes again and
leaves the object unchanged again; the bytes written to the archive file, when it opens, are
those bytes too. -/
theorem C15_serialize_repeatable (K : Decls) (A : Abi) (c : SonarConfiguration)
    (opened1 opened2 : Bool) (stream : List Nat) :
    (serializeTo K A c opened1 stream).cfg._sfm = c._sfm
    ∧ (serializeTo K A c opened1 stream).cfg._postponeCallback = c._postponeCallback
    ∧ (serializeTo K A c opened1 stream).cfg = c
    ∧ (serializeTo K A (serializeTo K A c opened1 stream).cfg opened2
        (serializeTo K A c opened1 stream).stream).cfg = c
    ∧ ((serializeTo K A c opened1 stream).stream).take stream.length = stream
    ∧ ((serializeTo K A c opened1 stream).stream).drop stream.length
        = (List.range K.sizeofSimpleFireMessage).map (A.byteAt c._sfm)
    ∧ (((serializeTo K A c opened1 stream).stream).drop stream.length).length
        = K.sizeofSimpleFireMessage
    ∧ ((serializeTo K A (serializeTo K A c opened1 stream).cfg opened2
        (serializeTo K A c opened1 stream).stream).stream).take
          (serializeTo K A c opened1 stream).stream.length
        = (serializeTo K A c opened1 stream).stream
    ∧ ((serializeTo K A (serializeTo K A c opened1 stream).cfg opened2
        (serializeTo K A c opened1 stream).stream).stream).drop
          (serializeTo K A c opened1 stream).stream.length
        = ((serializeTo K A c opened1 stream).stream).drop stream.length
    ∧ (serializeTo K A (serializeTo K A c opened1 stream).cfg true
        (serializeTo K A c opened1 stream).stream).outFile
        = some (((serializeTo K A c opened1 stream).stream).drop stream.length) := by
  have hc : ∀ (d : SonarConfiguration) (o : Bool) (st : List Nat),
      (serializeTo K A d o st).cfg = d := fun _ _ _ => rfl
  have h : ∀ (d : SonarConfiguration) (o : Bool) (st : List Nat),
      (serializeTo K A d o st).stream
        = st ++ (List.range K.sizeofSimpleFireMessage).map (A.byteAt d._sfm) :=
    fun _ _ _ => rfl
  have hf : ∀ (d : SonarConfiguration) (st : List Nat),
      (serializeTo K A d true st).outFile
        = some ((List.range K.sizeofSimpleFireMessage).map (A.byteAt d._sfm)) :=
    fun _ _ => rfl
  refine ⟨rfl, rfl, rfl, rfl, ?_, ?_, ?_, ?_, ?_, ?_⟩
  · rw [h, List.take_left]
  · rw [h, List.drop_left]
  · rw [h, List.drop_left]
    simp
  · rw [hc, h c opened2, h c opened1, List.take_left]
  · rw [hc, h c opened2, h c opened1, List.drop_left, List.drop_left]
  · rw [hc, hf, h c opened1, List.drop_left]

/-- C18 (latch cleared by any notification attempt): for every configuration, postponed or
not, after `sendCallback` and after any setter call the postpone flag is false, and the
observer, when one is registered, was invoked exactly once during the call, with the
configuration the call leaves. -/
theorem C18_latch_cleared (c : SonarConfiguration) :
    (sendCallback c).cfg._postponeCallback = false
    ∧ (sendCallback c).calls = (if c._callback then [(sendCallback c).cfg] else [])
    ∧ (∀ s : Setter,
        (applySetter c s).cfg._postponeCallback = false
        ∧ (applySetter c s).calls = (if c._callback then [(applySetter c s).cfg] else [])) := by
  refine ⟨?_, sendCallback_calls_cfg c, fun s => ⟨applySetter_postpone c s,
    applySetter_calls_cfg c s⟩⟩
  rw [sendCallback_cfg]

/-- C16 (setGamma narrows to a byte): after `setGamma(v)` the gammaCorrection byte is the
narrowing of `v` when `v` is a number with `0 < v <= 127` and the prior byte otherwise; the
narrowing `k` of such a `v` is its truncation toward zero, `k <= v < k + 1`, and fits a byte;
a whole number is stored as itself, and every `v` with `0 < v < 1` is stored as 0. -/
theorem C16_setGamma_narrows (c : SonarConfiguration) (v : Double) :
    (setGamma c v).cfg._sfm.gammaCorrection
        = (if Double.inOC v 127 then Double.toUInt8 v else c._sfm.gammaCorrection)
    ∧ (Double.inOC v 127 →
        Double.truncatesTo v (Double.toUInt8 v) ∧ Double.toUInt8 v ≤ 127)
    ∧ (Double.inOC v 127 → ∀ k : Nat, Double.isNat v k →
        (setGamma c v).cfg._sfm.gammaCorrection = k)
    ∧ (Double.fractional v → (setGamma c v).cfg._sfm.gammaCorrection = 0) := by
  have key : (setGamma c v).cfg._sfm.gammaCorrection
      = (if Double.inOC v 127 then Double.toUInt8 v else c._sfm.gammaCorrection) := by
    rw [setGamma_eq, sendCallback_cfg]
    by_cases h : Double.inOC v 127 <;> simp [h]
  refine ⟨key, fun h => ⟨Double.toUInt8_truncates v h, Double.toUInt8_le v h⟩,
    fun h k hk => ?_, fun hf => ?_⟩
  · rw [key, if_pos h]
    exact Double.toUInt8_isNat v k h hk
  · rw [key, if_pos (Double.fractional_inOC v hf)]
    exact Double.toUInt8_fractional v hf

/-- C16 at concrete inputs, from the default configuration: `setGamma(2.5)` stores 2, which
is the truncation of 2.5; `setGamma(127.0)` stores 127; `setGamma(0.5)` stores 0. -/
theorem C16_setGamma_narrows_witness :
    Double.inOC ⟨0x4004000000000000⟩ 127
    ∧ (setGamma (new Decls.sample) ⟨0x4004000000000000⟩).cfg._sfm.gammaCorrection = 2
    ∧ Double.truncatesTo ⟨0x4004000000000000⟩ 2
    ∧ (setGamma (new Decls.sample) ⟨0x405FC00000000000⟩).cfg._sfm.gammaCorrection = 127
    ∧ (setGamma (new Decls.sample) ⟨0x3FE0000000000000⟩).cfg._sfm.gammaCorrection = 0 :=
  ⟨by decide,
   ((C16_setGamma_narrows (new Decls.sample) ⟨0x4004000000000000⟩).1).trans
      (if_pos (by decide)),
   ((C16_setGamma_narrows (new Decls.sample) ⟨0x4004000000000000⟩).2.1 (by decide)).1,
   (C16_setGamma_narrows (new Decls.sample) ⟨0x405FC00000000000⟩).2.2.1 (by decide) 127
      (by decide),
   (C16_setGamma_narrows (new Decls.sample) ⟨0x3FE0000000000000⟩).2.2.2 (by decide)⟩

/-- C17 (setter frame): each of `setRange`, `setGainPercent`, `setGamma`, `setPingRate` and
`setFreqMode` leaves every field of the command struct other than its own target (range,
gainPercent, gammaCorrection, pingRate, masterMode) as it was; so in every configuration
reached from the default one by setter calls the header fields, networkSpeed, flags,
speedOfSound and salinity still hold the constructor's values. -/
theorem C17_setter_frame :
    (∀ (c : SonarConfiguration) (v : Double),
      (setRange c v).cfg._sfm = { c._sfm with range := (setRange c v).cfg._sfm.range }
      ∧ (setGainPercent c v).cfg._sfm
          = { c._sfm with gainPercent := (setGainPercent c v).cfg._sfm.gainPercent }
      ∧ (setGamma c v).cfg._sfm
          = { c._sfm with gammaCorrection := (setGamma c v).cfg._sfm.gammaCorrection })
    ∧ (∀ (c : SonarConfiguration) (v : Nat),
      (setPingRate c v).cfg._sfm
          = { c._sfm with pingRate := (setPingRate c v).cfg._sfm.pingRate }
      ∧ (setFreqMode c v).cfg._sfm
          = { c._sfm with masterMode := (setFreqMode c v).cfg._sfm.masterMode })
    ∧ (∀ (K : Decls) (ss : List Setter),
      (runSetters (new K) ss).cfg._sfm.head
          = { oculusId := 0x4f53, msgId := K.messageSimpleFire, srcDeviceId := 0,
              dstDeviceId := 0,
              payloadSize := K.sizeofSimpleFireMessage - K.sizeofMessageHeader }
      ∧ (runSetters (new K) ss).cfg._sfm.networkSpeed = 0xff
      ∧ (runSetters (new K) ss).cfg._sfm.flags = 0x19
      ∧ (runSetters (new K) ss).cfg._sfm.speedOfSound = Double.zero
      ∧ (runSetters (new K) ss).cfg._sfm.salinity = Double.zero) := by
  refine ⟨fun c v => ⟨?_, ?_, ?_⟩, fun c v => ⟨?_, ?_⟩, fun K ss => ?_⟩
  · rw [setRange_eq, sendCallback_cfg]
    by_cases h : Double.inOC v 40 <;> simp [h]
  · rw [setGainPercent_eq, sendCallback_cfg]
    by_cases h : Double.inOC v 100 <;> simp [h]
  · rw [setGamma_eq, sendCallback_cfg]
    by_cases h : Double.inOC v 127 <;> simp [h]
  · rw [setPingRate_eq, sendCallback_cfg]
  · rw [setFreqMode_eq, sendCallback_cfg]
  · have hframe : ∀ (d : SonarConfiguration) (s : Setter),
        (applySetter d s).cfg._sfm.networkSpeed = d._sfm.networkSpeed
        ∧ (applySetter d s).cfg._sfm.flags = d._sfm.flags
        ∧ (applySetter d s).cfg._sfm.speedOfSound = d._sfm.speedOfSound
        ∧ (applySetter d s).cfg._sfm.salinity = d._sfm.salinity := by
      intro d s
      cases s <;>
        simp only [applySetter, setRange_eq, setGainPercent_eq, setGamma_eq, setPingRate_eq,
          setFreqMode_eq, sendCallback_cfg] <;>
        first
          | exact ⟨rfl, rfl, rfl, rfl⟩
          | exact ⟨trivial, trivial, trivial, trivial⟩
          | (split <;> exact ⟨rfl, rfl, rfl, rfl⟩)
    have hinv := runSetters_preserves
      (fun d => d._sfm.networkSpeed = 0xff ∧ d._sfm.flags = 0x19
        ∧ d._sfm.speedOfSound = Double.zero ∧ d._sfm.salinity = Double.zero)
      (fun d s hd => by
        obtain ⟨h1, h2, h3, h4⟩ := hframe d s
        exact ⟨h1.trans hd.1, h2.trans hd.2.1, h3.trans hd.2.2.1, h4.trans hd.2.2.2⟩)
      (new K) ⟨rfl, rfl, rfl, rfl⟩ ss
    exact ⟨(runSetters_head (new K) ss).trans rfl, hinv⟩

end liboculus
